import Mathlib

/- Shallow embedding of the call-zen-panel repository (three Python scripts:
   `analyze_transcripts.py`, `scripts/generate_compliance_rules.py`,
   `scripts/generate_compliance_rules_200.py`).  Python strings are modelled
   as `List Char`; the Python string methods used by the scripts are given
   executable structural definitions below. -/

/-- Python `str` is modelled as a list of characters. -/
abbrev Str := List Char

/-- Characters removed by Python `str.strip()` (whitespace). -/
def pyIsSpace (c : Char) : Bool :=
  c = ' ' || c = '\t' || c = '\n' || c = '\r' || c = '\x0b' || c = '\x0c'

/-- Python `s.strip()`: drop whitespace from both ends. -/
def pyStrip (s : Str) : Str :=
  ((s.dropWhile pyIsSpace).reverse.dropWhile pyIsSpace).reverse

/-- Python `s.startswith(p)`. -/
def pyStartswith (s p : Str) : Bool := p.isPrefixOf s

/-- Python `s.endswith(p)`. -/
def pyEndswith (s p : Str) : Bool := p.isSuffixOf s

/-- Python `needle in hay` (substring containment). -/
def hasSub : Str → Str → Bool
  | needle, [] => needle.isEmpty
  | needle, c :: t => needle.isPrefixOf (c :: t) || hasSub needle t

/-- Python `s.lower()` (ASCII case folding suffices for the scripts). -/
def pyLower (s : Str) : Str := s.map Char.toLower

/-- Python `s.split(sep, 1)[1]`: everything after the first occurrence of the
    one-character separator (used with `':'` in the reply parser). -/
def afterChar (sep : Char) : Str → Str
  | [] => []
  | c :: t => if c = sep then t else afterChar sep t

/-- Python `s.split(c)` for a one-character separator (used with `'\n'`). -/
def pySplitChar (sep : Char) : Str → List Str
  | [] => [[]]
  | c :: t =>
    if c = sep then [] :: pySplitChar sep t
    else
      match pySplitChar sep t with
      | [] => [[c]]
      | l :: ls => (c :: l) :: ls

/-- Fueled scanner for Python `s.replace(old, new)` (all occurrences,
    left-to-right, non-overlapping; `old` is nonempty at every call site). -/
def pyReplaceAux (old new : Str) : Nat → Str → Str
  | _, [] => []
  | 0, s => s
  | fuel + 1, c :: t =>
    if !old.isEmpty && old.isPrefixOf (c :: t) then
      new ++ pyReplaceAux old new fuel ((c :: t).drop old.length)
    else
      c :: pyReplaceAux old new fuel t

/-- Python `s.replace(old, new)` for nonempty `old`. -/
def pyReplace (old new s : Str) : Str := pyReplaceAux old new s.length s

/- ----- `analyze_transcripts.py`: reply parsing (`main`, lines 50-63) ----- -/

/-- State of the three parsed fields (`summary`, `severity`, `sentiment`). -/
structure ParsedReply where
  summary : Str
  severity : Str
  sentiment : Str
deriving DecidableEq

/-- Condition `line.startswith('1.') or 'Summary' in line`. -/
def summaryMarker (line : Str) : Bool :=
  pyStartswith line "1.".data || hasSub "Summary".data line

/-- Condition `line.startswith('2.') or 'Severity' in line`. -/
def severityMarker (line : Str) : Bool :=
  pyStartswith line "2.".data || hasSub "Severity".data line

/-- Condition `line.startswith('3.') or 'Sentiment' in line`. -/
def sentimentMarker (line : Str) : Bool :=
  pyStartswith line "3.".data || hasSub "Sentiment".data line

/-- A line the `elif` chain treats as a severity line: severity markers hold
    and the summary branch was not taken. -/
def sevClassLine (line : Str) : Bool :=
  !summaryMarker line && severityMarker line

/-- A line the `elif` chain treats as a sentiment line. -/
def sentClassLine (line : Str) : Bool :=
  !summaryMarker line && !severityMarker line && sentimentMarker line

/-- Value assigned to `summary` by a summary line:
    `line.split(':', 1)[1].strip() if ':' in line else line`. -/
def summaryVal (line : Str) : Str :=
  if hasSub ":".data line then pyStrip (afterChar ':' line) else line

/-- One iteration of the `for line in lines` loop of `main`. -/
def parseStep (st : ParsedReply) (line : Str) : ParsedReply :=
  if summaryMarker line then
    { st with summary := summaryVal line }
  else if severityMarker line then
    if hasSub "High".data line then { st with severity := "High".data }
    else if hasSub "Low".data line then { st with severity := "Low".data }
    else st
  else if sentimentMarker line then
    if hasSub "positive".data (pyLower line) then { st with sentiment := "positive".data }
    else if hasSub "negative".data (pyLower line) then { st with sentiment := "negative".data }
    else st
  else st

/-- Initial field values: `summary = ""`, `severity = "Medium"`,
    `sentiment = "neutral"`. -/
def initParsed : ParsedReply :=
  { summary := [], severity := "Medium".data, sentiment := "neutral".data }

/-- The whole parsing loop over an already-split list of lines. -/
def parseReplyLines (lines : List Str) : ParsedReply :=
  lines.foldl parseStep initParsed

/-- `lines = result.strip().split('\n')`. -/
def linesOf (reply : Str) : List Str := pySplitChar '\n' (pyStrip reply)

/-- Parsing of a whole Analysis Reply string. -/
def parseReply (reply : Str) : ParsedReply := parseReplyLines (linesOf reply)

example : (parseReply "2. Severity: High - repeated issue".data).severity = "High".data := by decide
example : (parseReply "".data).severity = "Medium".data := by decide
example :
    (parseReply "Summary: Customer reports a failed payment.".data).summary
      = "Customer reports a failed payment.".data := by decide
example : (parseReply "3. Sentiment: Negative tone detected".data).sentiment = "negative".data := by
  decide
example : (parseReplyLines ["2. Summary of Severity: High".data]).summary = "High".data := by decide
example : (parseReplyLines ["2. Summary of Severity: High".data]).severity = "Medium".data := by
  decide

/- ----- Characterization of one parsing step ----- -/

theorem parseStep_of_summary (st : ParsedReply) (l : Str) (h : summaryMarker l = true) :
    parseStep st l = { st with summary := summaryVal l } := by
  simp [parseStep, h]

theorem parseStep_summary_unchanged (st : ParsedReply) (l : Str) (h : summaryMarker l = false) :
    (parseStep st l).summary = st.summary := by
  unfold parseStep
  split_ifs <;> simp_all

theorem parseStep_sets_high (st : ParsedReply) (l : Str) (hc : sevClassLine l = true)
    (hh : hasSub "High".data l = true) : (parseStep st l).severity = "High".data := by
  simp only [sevClassLine, Bool.and_eq_true, Bool.not_eq_true'] at hc
  simp [parseStep, hc.1, hc.2, hh]

theorem parseStep_severity_unchanged (st : ParsedReply) (l : Str) (h : sevClassLine l = false) :
    (parseStep st l).severity = st.severity := by
  simp only [sevClassLine, Bool.and_eq_false_iff, Bool.not_eq_false'] at h
  unfold parseStep
  split_ifs <;> simp_all

theorem parseStep_severity_unchanged_noHL (st : ParsedReply) (l : Str)
    (hh : hasSub "High".data l = false) (hl : hasSub "Low".data l = false) :
    (parseStep st l).severity = st.severity := by
  unfold parseStep
  split_ifs <;> simp_all

theorem parseStep_sets_pos (st : ParsedReply) (l : Str) (hc : sentClassLine l = true)
    (hp : hasSub "positive".data (pyLower l) = true) :
    (parseStep st l).sentiment = "positive".data := by
  simp only [sentClassLine, Bool.and_eq_true, Bool.not_eq_true'] at hc
  simp [parseStep, hc.1.1, hc.1.2, hc.2, hp]

theorem parseStep_sets_neg (st : ParsedReply) (l : Str) (hc : sentClassLine l = true)
    (hp : hasSub "positive".data (pyLower l) = false)
    (hn : hasSub "negative".data (pyLower l) = true) :
    (parseStep st l).sentiment = "negative".data := by
  simp only [sentClassLine, Bool.and_eq_true, Bool.not_eq_true'] at hc
  simp [parseStep, hc.1.1, hc.1.2, hc.2, hp, hn]

theorem parseStep_sentiment_unchanged (st : ParsedReply) (l : Str) (h : sentClassLine l = false) :
    (parseStep st l).sentiment = st.sentiment := by
  simp only [sentClassLine, Bool.and_eq_false_iff, Bool.not_eq_false'] at h
  unfold parseStep
  split_ifs <;> simp_all

theorem parseStep_sentiment_unchanged_noPN (st : ParsedReply) (l : Str)
    (hp : hasSub "positive".data (pyLower l) = false)
    (hn : hasSub "negative".data (pyLower l) = false) :
    (parseStep st l).sentiment = st.sentiment := by
  unfold parseStep
  split_ifs <;> simp_all

theorem parseStep_sets_summary (st : ParsedReply) (l : Str) (h : summaryMarker l = true) :
    (parseStep st l).summary = summaryVal l := by
  simp [parseStep, h]

/- ----- Behaviour of the whole loop ----- -/

theorem foldl_severity_keep_high (lines : List Str) :
    ∀ st : ParsedReply, st.severity = "High".data →
      (∀ l ∈ lines, sevClassLine l = true → hasSub "Low".data l = false) →
      (lines.foldl parseStep st).severity = "High".data := by
  induction lines with
  | nil => intro st hst _; simpa using hst
  | cons l t ih =>
    intro st hst h
    simp only [List.foldl_cons]
    refine ih _ ?_ ?_
    · by_cases hc : sevClassLine l = true
      · by_cases hh : hasSub "High".data l = true
        · exact parseStep_sets_high st l hc hh
        · have hlow := h l (List.mem_cons_self l t) hc
          rw [parseStep_severity_unchanged_noHL st l (Bool.eq_false_iff.mpr hh) hlow]
          exact hst
      · rw [parseStep_severity_unchanged st l (Bool.eq_false_iff.mpr hc)]
        exact hst
    · intro l2 hl2 hc2
      exact h l2 (List.mem_cons_of_mem _ hl2) hc2

theorem foldl_severity_unchanged (lines : List Str) :
    ∀ st : ParsedReply, (∀ l ∈ lines, sevClassLine l = false) →
      (lines.foldl parseStep st).severity = st.severity := by
  induction lines with
  | nil => intro st _; rfl
  | cons l t ih =>
    intro st h
    simp only [List.foldl_cons]
    rw [ih _ (fun l2 hl2 => h l2 (List.mem_cons_of_mem _ hl2)),
      parseStep_severity_unchanged st l (h l (List.mem_cons_self l t))]

theorem foldl_summary_unchanged (lines : List Str) :
    ∀ st : ParsedReply, (∀ l ∈ lines, summaryMarker l = false) →
      (lines.foldl parseStep st).summary = st.summary := by
  induction lines with
  | nil => intro st _; rfl
  | cons l t ih =>
    intro st h
    simp only [List.foldl_cons]
    rw [ih _ (fun l2 hl2 => h l2 (List.mem_cons_of_mem _ hl2)),
      parseStep_summary_unchanged st l (h l (List.mem_cons_self l t))]

theorem foldl_sentiment_unchanged_noPN (lines : List Str) :
    ∀ st : ParsedReply,
      (∀ l ∈ lines, sentClassLine l = true →
          hasSub "positive".data (pyLower l) = false ∧
          hasSub "negative".data (pyLower l) = false) →
      (lines.foldl parseStep st).sentiment = st.sentiment := by
  induction lines with
  | nil => intro st _; rfl
  | cons l t ih =>
    intro st h
    simp only [List.foldl_cons]
    rw [ih _ (fun l2 hl2 => h l2 (List.mem_cons_of_mem _ hl2))]
    by_cases hc : sentClassLine l = true
    · obtain ⟨hp, hn⟩ := h l (List.mem_cons_self l t) hc
      exact parseStep_sentiment_unchanged_noPN st l hp hn
    · exact parseStep_sentiment_unchanged st l (Bool.eq_false_iff.mpr hc)

theorem sevClass_false_of_noMarker (l : Str) (h : severityMarker l = false) :
    sevClassLine l = false := by
  simp [sevClassLine, h]

theorem sentClass_false_of_noMarker (l : Str) (h : sentimentMarker l = false) :
    sentClassLine l = false := by
  simp [sentClassLine, h]

/-- C1: if some line classified as a severity line (severity markers hold and it
    is not a summary line) contains "High", and no later severity-classified
    line contains "Low", the parsed severity is "High"; if no line matches the
    severity markers at all, the severity keeps its default "Medium". -/
theorem c1_severity (reply : Str) :
    (∀ pre l post,
        linesOf reply = pre ++ l :: post →
        sevClassLine l = true →
        hasSub "High".data l = true →
        (∀ l2 ∈ post, sevClassLine l2 = true → hasSub "Low".data l2 = false) →
        (parseReply reply).severity = "High".data) ∧
    ((∀ l ∈ linesOf reply, severityMarker l = false) →
      (parseReply reply).severity = "Medium".data) := by
  constructor
  · intro pre l post hsplit hc hh hpost
    unfold parseReply parseReplyLines
    rw [hsplit, List.foldl_append, List.foldl_cons]
    exact foldl_severity_keep_high post _ (parseStep_sets_high _ l hc hh) hpost
  · intro h
    unfold parseReply parseReplyLines
    rw [foldl_severity_unchanged _ _ (fun l hl => sevClass_false_of_noMarker l (h l hl))]
    rfl

/-- Witness for C1 at the spec's example reply and at an unstructured reply. -/
theorem c1_severity_witness :
    (parseReply "2. Severity: High - repeated issue".data).severity = "High".data ∧
    (parseReply "no markers here".data).severity = "Medium".data := by
  constructor
  · exact (c1_severity _).1 [] "2. Severity: High - repeated issue".data [] (by decide)
      (by decide) (by decide) (by intro l2 h; cases h)
  · exact (c1_severity _).2 (by decide)

/-- C2: the last line matching the summary markers determines the summary,
    whose value is the text after the first colon, stripped, or the whole line
    when the line has no colon. -/
theorem c2_summary (reply : Str) (pre post : List Str) (l : Str)
    (hsplit : linesOf reply = pre ++ l :: post)
    (hl : summaryMarker l = true)
    (hpost : ∀ l2 ∈ post, summaryMarker l2 = false) :
    (parseReply reply).summary = summaryVal l := by
  unfold parseReply parseReplyLines
  rw [hsplit, List.foldl_append, List.foldl_cons,
    foldl_summary_unchanged post _ hpost, parseStep_sets_summary _ l hl]

/-- Witness for C2 at the spec's example summary line. -/
theorem c2_summary_witness :
    (parseReply "Summary: Customer reports a failed payment.".data).summary
      = "Customer reports a failed payment.".data :=
  (c2_summary "Summary: Customer reports a failed payment.".data [] []
      "Summary: Customer reports a failed payment.".data (by decide) (by decide)
      (by intro l2 h; cases h)).trans (by decide)

/-- C3 counterexample: in a reply whose first sentiment-classified line
    contains "positive" and whose later sentiment-classified line contains
    "negative", the claim would force the sentiment to equal "positive" for
    the first line, but the code ends with "negative" (the later line wins). -/
theorem c3_counterexample :
    linesOf "3. Sentiment: positive\n3. Sentiment: negative".data
      = ["3. Sentiment: positive".data, "3. Sentiment: negative".data] ∧
    sentClassLine "3. Sentiment: positive".data = true ∧
    hasSub "positive".data (pyLower "3. Sentiment: positive".data) = true ∧
    (parseReply "3. Sentiment: positive\n3. Sentiment: negative".data).sentiment
      = "negative".data ∧
    "negative".data ≠ "positive".data := by decide

/-- C3 amended: if some sentiment-classified line contains "positive" or
    "negative" (case-insensitively) and no later sentiment-classified line
    contains either word, the parsed sentiment is "positive" when the line
    contains "positive" (checked first) and "negative" otherwise; if no line
    matches the sentiment markers, the sentiment keeps its default "neutral". -/
theorem c3_sentiment_amended (reply : Str) :
    (∀ pre l post,
        linesOf reply = pre ++ l :: post →
        sentClassLine l = true →
        (hasSub "positive".data (pyLower l) || hasSub "negative".data (pyLower l)) = true →
        (∀ l2 ∈ post, sentClassLine l2 = true →
            hasSub "positive".data (pyLower l2) = false ∧
            hasSub "negative".data (pyLower l2) = false) →
        (parseReply reply).sentiment =
          (if hasSub "positive".data (pyLower l) then "positive".data else "negative".data)) ∧
    ((∀ l ∈ linesOf reply, sentimentMarker l = false) →
      (parseReply reply).sentiment = "neutral".data) := by
  constructor
  · intro pre l post hsplit hc hpn hpost
    unfold parseReply parseReplyLines
    rw [hsplit, List.foldl_append, List.foldl_cons,
      foldl_sentiment_unchanged_noPN post _ hpost]
    by_cases hp : hasSub "positive".data (pyLower l) = true
    · rw [parseStep_sets_pos _ l hc hp, if_pos hp]
    · have hp' : hasSub "positive".data (pyLower l) = false := Bool.eq_false_iff.mpr hp
      have hn : hasSub "negative".data (pyLower l) = true := by
        rcases Bool.or_eq_true_iff.mp hpn with h | h
        · exact absurd h hp
        · exact h
      rw [parseStep_sets_neg _ l hc hp' hn, if_neg hp]
  · intro h
    unfold parseReply parseReplyLines
    rw [foldl_sentiment_unchanged_noPN _ _
      (fun l hl hc => absurd hc (by simp [sentClass_false_of_noMarker l (h l hl)]))]
    rfl

/-- Witness for the amended C3 at the spec's example reply and at a reply with
    no sentiment markers. -/
theorem c3_sentiment_amended_witness :
    (parseReply "3. Sentiment: Negative tone detected".data).sentiment = "negative".data ∧
    (parseReply "no markers here".data).sentiment = "neutral".data := by
  constructor
  · exact ((c3_sentiment_amended _).1 [] "3. Sentiment: Negative tone detected".data []
      (by decide) (by decide) (by decide) (by intro l2 h; cases h)).trans (by decide)
  · exact (c3_sentiment_amended _).2 (by decide)

theorem parseStep_severity_cases (st : ParsedReply) (l : Str) :
    (parseStep st l).severity = st.severity ∨ (parseStep st l).severity = "High".data ∨
      (parseStep st l).severity = "Low".data := by
  unfold parseStep
  split_ifs <;> simp

theorem parseStep_sentiment_cases (st : ParsedReply) (l : Str) :
    (parseStep st l).sentiment = st.sentiment ∨ (parseStep st l).sentiment = "positive".data ∨
      (parseStep st l).sentiment = "negative".data := by
  unfold parseStep
  split_ifs <;> simp

theorem foldl_parse_range (lines : List Str) :
    ∀ st : ParsedReply,
      (st.severity = "High".data ∨ st.severity = "Medium".data ∨ st.severity = "Low".data) →
      (st.sentiment = "positive".data ∨ st.sentiment = "neutral".data ∨
        st.sentiment = "negative".data) →
      ((lines.foldl parseStep st).severity = "High".data ∨
        (lines.foldl parseStep st).severity = "Medium".data ∨
        (lines.foldl parseStep st).severity = "Low".data) ∧
      ((lines.foldl parseStep st).sentiment = "positive".data ∨
        (lines.foldl parseStep st).sentiment = "neutral".data ∨
        (lines.foldl parseStep st).sentiment = "negative".data) := by
  induction lines with
  | nil => intro st h1 h2; exact ⟨h1, h2⟩
  | cons l t ih =>
    intro st h1 h2
    simp only [List.foldl_cons]
    refine ih _ ?_ ?_
    · rcases parseStep_severity_cases st l with h | h | h
      · rw [h]; exact h1
      · rw [h]; left; rfl
      · rw [h]; right; right; rfl
    · rcases parseStep_sentiment_cases st l with h | h | h
      · rw [h]; exact h2
      · rw [h]; left; rfl
      · rw [h]; right; right; rfl

/-- C5: parsing any reply whatsoever is total and yields a severity among
    High, Medium, Low and a sentiment among positive, neutral, negative (the
    defaults being Medium and neutral, with an always-defined summary). -/
theorem c5_parse_total (reply : Str) :
    ((parseReply reply).severity = "High".data ∨ (parseReply reply).severity = "Medium".data ∨
      (parseReply reply).severity = "Low".data) ∧
    ((parseReply reply).sentiment = "positive".data ∨
      (parseReply reply).sentiment = "neutral".data ∨
      (parseReply reply).sentiment = "negative".data) := by
  unfold parseReply parseReplyLines
  exact foldl_parse_range _ initParsed (Or.inr (Or.inl rfl)) (Or.inr (Or.inl rfl))

/-- C9: each line updates at most one field, with precedence
    summary over severity over sentiment; in particular the line
    "2. Summary of Severity: High" is treated as a summary line and leaves
    the severity at its "Medium" default. -/
theorem c9_line_precedence :
    (∀ (st : ParsedReply) (l : Str),
        (summaryMarker l = true →
          (parseStep st l).severity = st.severity ∧
          (parseStep st l).sentiment = st.sentiment) ∧
        (summaryMarker l = false → severityMarker l = true →
          (parseStep st l).summary = st.summary ∧
          (parseStep st l).sentiment = st.sentiment) ∧
        (summaryMarker l = false → severityMarker l = false →
          (parseStep st l).summary = st.summary ∧
          (parseStep st l).severity = st.severity)) ∧
    (parseReplyLines ["2. Summary of Severity: High".data]).summary = "High".data ∧
    (parseReplyLines ["2. Summary of Severity: High".data]).severity = "Medium".data ∧
    (parseReplyLines ["2. Summary of Severity: High".data]).sentiment = "neutral".data := by
  refine ⟨fun st l => ⟨?_, ?_, ?_⟩, by decide, by decide, by decide⟩
  · intro h
    rw [parseStep_of_summary st l h]
    exact ⟨rfl, rfl⟩
  · intro h1 h2
    unfold parseStep
    split_ifs <;> simp_all
  · intro h1 h2
    unfold parseStep
    split_ifs <;> simp_all

/-- Witness for C9: the mixed line of the claim, applied at the initial state,
    leaves severity and sentiment untouched. -/
theorem c9_line_precedence_witness :
    (parseStep initParsed "2. Summary of Severity: High".data).severity = initParsed.severity ∧
    (parseStep initParsed "2. Summary of Severity: High".data).sentiment = initParsed.sentiment :=
  (c9_line_precedence.1 initParsed "2. Summary of Severity: High".data).1 (by decide)

/- ----- `analyze_transcripts.py`: the `main` loop over the directory ----- -/

/-- Fields read from one input file; `json.load` plus `.get(..., "")` means a
    field absent from the file (modelled as `none`) defaults to `""`. -/
structure CaseData where
  call_transcript : Option Str
  customer_unique_id : Option Str
  customer_name : Option Str
  support_agent_name : Option Str

/-- Python `data.get(key, "")`. -/
def pyGetStr (o : Option Str) : Str := o.getD []

/-- `case_id = filename.replace('.json', '').replace('transcript_', '')`. -/
def case_id (filename : Str) : Str :=
  pyReplace "transcript_".data [] (pyReplace ".json".data [] filename)

/-- One Case Analysis Record as assembled by `main`. -/
structure Analysis where
  id : Str
  customerId : Str
  customerName : Str
  agentName : Str
  caseSummary : Str
  sentiment : Str
  severity : Str
  timestamp : Str
deriving DecidableEq

/-- The record assembled for one file once the Analysis Reply is known. -/
def mkAnalysisOfReply (filename : Str) (data : CaseData) (reply : Str) : Analysis :=
  { id := case_id filename
    customerId := pyGetStr data.customer_unique_id
    customerName := pyGetStr data.customer_name
    agentName := pyGetStr data.support_agent_name
    caseSummary := (parseReply reply).summary
    sentiment := (parseReply reply).sentiment
    severity := (parseReply reply).severity
    timestamp := "Recently analyzed".data }

/-- The record produced for one file, the external capability being modelled
    as a function from transcript text to reply text. -/
def mkAnalysis (analyze : Str → Str) (filename : Str) (data : CaseData) : Analysis :=
  mkAnalysisOfReply filename data (analyze (pyGetStr data.call_transcript))

/-- The `for filename in os.listdir(TRANSCRIPT_FOLDER)` loop of `main`; the
    directory listing is modelled as a list of (filename, parsed content)
    pairs in listing order. -/
def processFiles (analyze : Str → Str) : List (Str × CaseData) → List Analysis
  | [] => []
  | (fn, d) :: rest =>
    if pyEndswith fn ".json".data then
      mkAnalysis analyze fn d :: processFiles analyze rest
    else processFiles analyze rest

/-- C6: the output collection holds exactly one record per file whose name
    ends with ".json", in listing order, each mapped from its own file; other
    files are skipped.  In particular two valid case files plus one file of
    another extension yield exactly the two expected records. -/
theorem c6_one_record_per_json_file :
    (∀ (analyze : Str → Str) (files : List (Str × CaseData)),
        processFiles analyze files
          = (files.filter (fun p => pyEndswith p.1 ".json".data)).map
              (fun p => mkAnalysis analyze p.1 p.2)) ∧
    (processFiles (fun t => t)
        [("transcript_case1.json".data,
            ⟨some "hello".data, some "C-1".data, some "Alice".data, some "Bob".data⟩),
          ("notes.txt".data, ⟨none, none, none, none⟩),
          ("case2.json".data,
            ⟨some "world".data, some "C-2".data, some "Carol".data, some "Dan".data⟩)]).length
        = 2 ∧
    (processFiles (fun t => t)
        [("transcript_case1.json".data,
            ⟨some "hello".data, some "C-1".data, some "Alice".data, some "Bob".data⟩),
          ("notes.txt".data, ⟨none, none, none, none⟩),
          ("case2.json".data,
            ⟨some "world".data, some "C-2".data, some "Carol".data, some "Dan".data⟩)]).map
        (fun r => (r.id, r.customerId, r.customerName, r.agentName))
        = [("case1".data, "C-1".data, "Alice".data, "Bob".data),
          ("case2".data, "C-2".data, "Carol".data, "Dan".data)] := by
  refine ⟨fun analyze files => ?_, by decide, by decide⟩
  induction files with
  | nil => rfl
  | cons p rest ih =>
    obtain ⟨fn, d⟩ := p
    by_cases h : pyEndswith fn ".json".data = true
    · simp [processFiles, h, ih]
    · simp [processFiles, Bool.eq_false_iff.mpr h, ih]

/-- The `main` loop with fallible file loading and a fallible external call:
    the first exception aborts the run, records accumulated so far are
    dropped. -/
def runMain (E : Type) (load : Str → Except E CaseData) (analyze : Str → Except E Str) :
    List Str → Except E (List Analysis)
  | [] => .ok []
  | fn :: rest =>
    if pyEndswith fn ".json".data then
      match load fn with
      | .error e => .error e
      | .ok d =>
        match analyze (pyGetStr d.call_transcript) with
        | .error e => .error e
        | .ok reply =>
          match runMain E load analyze rest with
          | .error e => .error e
          | .ok recs => .ok (mkAnalysisOfReply fn d reply :: recs)
    else runMain E load analyze rest

/-- The writes performed to `case_analyses.json`: the full record list is
    written once when the run succeeds, nothing is written when it fails. -/
def runWrites (E : Type) (load : Str → Except E CaseData) (analyze : Str → Except E Str)
    (files : List Str) : List (Str × List Analysis) :=
  match runMain E load analyze files with
  | .ok recs => [("case_analyses.json".data, recs)]
  | .error _ => []

/-- A json input file on which the run raises: loading it fails, or loading
    succeeds and the external call on its transcript fails. -/
def failsOn (E : Type) (load : Str → Except E CaseData) (analyze : Str → Except E Str)
    (fn : Str) : Prop :=
  (∃ e, load fn = .error e) ∨
    (∃ d e, load fn = .ok d ∧ analyze (pyGetStr d.call_transcript) = .error e)

theorem runMain_error_of_fails (E : Type) (load : Str → Except E CaseData)
    (analyze : Str → Except E Str) (files : List Str)
    (h : ∃ fn ∈ files, pyEndswith fn ".json".data = true ∧ failsOn E load analyze fn) :
    ∃ e, runMain E load analyze files = .error e := by
  induction files with
  | nil => obtain ⟨fn, hmem, -⟩ := h; cases hmem
  | cons fn rest ih =>
    obtain ⟨g, hmem, hjson, hfail⟩ := h
    rcases List.mem_cons.mp hmem with rfl | hmem2
    · rw [runMain, if_pos hjson]
      rcases hfail with ⟨e, he⟩ | ⟨d, e, hd, he⟩
      · exact ⟨e, by simp only [he]⟩
      · exact ⟨e, by simp only [hd, he]⟩
    · by_cases hj : pyEndswith fn ".json".data = true
      · rw [runMain, if_pos hj]
        obtain ⟨e, he⟩ := ih ⟨g, hmem2, hjson, hfail⟩
        cases hload : load fn with
        | error e2 => exact ⟨e2, by simp only [hload]⟩
        | ok d =>
          cases hana : analyze (pyGetStr d.call_transcript) with
          | error e2 => exact ⟨e2, by simp only [hload, hana]⟩
          | ok reply => exact ⟨e, by simp only [hload, hana, he]⟩
      · rw [runMain, if_neg hj]
        exact ih ⟨g, hmem2, hjson, hfail⟩

theorem runMain_ok_of_all_ok (E : Type) (load : Str → Except E CaseData)
    (analyze : Str → Except E Str) (files : List Str)
    (h : ∀ fn ∈ files, pyEndswith fn ".json".data = true →
        ∃ d reply, load fn = .ok d ∧ analyze (pyGetStr d.call_transcript) = .ok reply) :
    ∃ recs, runMain E load analyze files = .ok recs := by
  induction files with
  | nil => exact ⟨[], rfl⟩
  | cons fn rest ih =>
    obtain ⟨recs, hrecs⟩ := ih fun g hg => h g (List.mem_cons_of_mem _ hg)
    by_cases hj : pyEndswith fn ".json".data = true
    · obtain ⟨d, reply, hd, hr⟩ := h fn (List.mem_cons_self fn rest) hj
      refine ⟨mkAnalysisOfReply fn d reply :: recs, ?_⟩
      rw [runMain, if_pos hj]
      simp only [hd, hr, hrecs]
    · exact ⟨recs, by rw [runMain, if_neg hj]; exact hrecs⟩

/-- C7: atomicity of the run.  If loading some json input or the external
    call on it raises, nothing is ever written; when every json input loads
    and analyzes without error, the output file is written exactly once, with
    the full record list. -/
theorem c7_atomic_run (E : Type) (load : Str → Except E CaseData)
    (analyze : Str → Except E Str) (files : List Str) :
    ((∃ fn ∈ files, pyEndswith fn ".json".data = true ∧ failsOn E load analyze fn) →
      runWrites E load analyze files = []) ∧
    ((∀ fn ∈ files, pyEndswith fn ".json".data = true →
        ∃ d reply, load fn = .ok d ∧ analyze (pyGetStr d.call_transcript) = .ok reply) →
      ∃ recs, runWrites E load analyze files = [("case_analyses.json".data, recs)]) := by
  constructor
  · intro h
    obtain ⟨e, he⟩ := runMain_error_of_fails E load analyze files h
    rw [runWrites, he]
  · intro h
    obtain ⟨recs, hrecs⟩ := runMain_ok_of_all_ok E load analyze files h
    exact ⟨recs, by rw [runWrites, hrecs]⟩

/-- Witness for C7: a failing load on the only json file writes nothing; a
    run where load and the external call succeed writes exactly once. -/
theorem c7_atomic_run_witness :
    runWrites Unit (fun _ => .error ()) (fun _ => .ok []) ["a.json".data] = [] ∧
    ∃ recs, runWrites Unit (fun _ => .ok ⟨none, none, none, none⟩) (fun _ => .ok [])
        ["a.json".data] = [("case_analyses.json".data, recs)] := by
  constructor
  · exact (c7_atomic_run Unit _ _ _).1
      ⟨"a.json".data, List.mem_cons_self _ _, by decide, Or.inl ⟨(), rfl⟩⟩
  · exact (c7_atomic_run Unit _ _ _).2
      (fun g hg _ => by
        rcases List.mem_cons.mp hg with rfl | h2
        · exact ⟨⟨none, none, none, none⟩, [], rfl, rfl⟩
        · cases h2)

/- ----- C4: derivation of the caseId from the filename ----- -/

/-- Modelled from the claim's words, for comparison with `case_id`: the
    filename with its ".json" extension removed and its fixed "transcript_"
    leading prefix removed, the rest unchanged. -/
def caseIdClaim (filename : Str) : Str :=
  let noExt := if pyEndswith filename ".json".data then
    filename.take (filename.length - ".json".data.length) else filename
  if "transcript_".data.isPrefixOf noExt then
    noExt.drop "transcript_".data.length else noExt

example : case_id "transcript_case_123.json".data = "case_123".data := by decide
example : caseIdClaim "transcript_case_123.json".data = "case_123".data := by decide

/-- C4 counterexample: Python `str.replace` removes every occurrence, not
    just the extension and the leading prefix, so on
    "transcript_a.json.json" the code produces "a" while the claim demands
    "a.json". -/
theorem c4_counterexample :
    pyEndswith "transcript_a.json.json".data ".json".data = true ∧
    case_id "transcript_a.json.json".data = "a".data ∧
    caseIdClaim "transcript_a.json.json".data = "a.json".data ∧
    "a".data ≠ "a.json".data := by decide

/-- Python `s.split(sep)` for a nonempty substring separator: the same
    left-to-right non-overlapping scan as `pyReplaceAux`, spec-side. -/
def splitSubAux (sep : Str) : Nat → Str → List Str
  | _, [] => [[]]
  | 0, s => [s]
  | fuel + 1, c :: t =>
    if !sep.isEmpty && sep.isPrefixOf (c :: t) then
      [] :: splitSubAux sep fuel ((c :: t).drop sep.length)
    else
      match splitSubAux sep fuel t with
      | [] => [[c]]
      | l :: ls => (c :: l) :: ls

/-- Python `s.split(sep)` for nonempty `sep`. -/
def splitSub (sep s : Str) : List Str := splitSubAux sep s.length s

/-- Concatenation of split pieces (removing all separator occurrences). -/
def concatAll : List Str → Str
  | [] => []
  | l :: ls => l ++ concatAll ls

theorem splitSubAux_ne_nil (sep : Str) : ∀ fuel s, splitSubAux sep fuel s ≠ [] := by
  intro fuel
  induction fuel with
  | zero => intro s; cases s <;> simp [splitSubAux]
  | succ n _ =>
    intro s
    cases s with
    | nil => simp [splitSubAux]
    | cons c t =>
      rw [splitSubAux]
      split_ifs with h
      · simp
      · cases h2 : splitSubAux sep n t with
        | nil => simp
        | cons l ls => simp

theorem replaceAux_empty_eq_concat_split (old : Str) :
    ∀ fuel s, pyReplaceAux old [] fuel s = concatAll (splitSubAux old fuel s) := by
  intro fuel
  induction fuel with
  | zero => intro s; cases s <;> simp [pyReplaceAux, splitSubAux, concatAll]
  | succ n ih =>
    intro s
    cases s with
    | nil => simp [pyReplaceAux, splitSubAux, concatAll]
    | cons c t =>
      rw [pyReplaceAux, splitSubAux]
      split_ifs with h
      · simp only [List.nil_append, concatAll, ih]
      · cases h2 : splitSubAux old n t with
        | nil => exact absurd h2 (splitSubAux_ne_nil old n t)
        | cons l ls =>
          have hrep := ih t
          rw [h2] at hrep
          rw [hrep]
          simp [concatAll]

theorem pyReplace_empty_concat (old s : Str) :
    pyReplace old [] s = concatAll (splitSub old s) :=
  replaceAux_empty_eq_concat_split old s.length s

/-- C4 amended: the caseId equals the filename with every occurrence of
    ".json" removed (split on that substring and rejoined) and then every
    occurrence of "transcript_" removed from the result; only when each
    substring occurs exactly once, as the extension and the leading prefix,
    does this coincide with plain stripping. -/
theorem c4_case_id_amended (filename : Str) :
    case_id filename
      = concatAll (splitSub "transcript_".data (concatAll (splitSub ".json".data filename))) := by
  rw [case_id, pyReplace_empty_concat, pyReplace_empty_concat]

/- ----- `scripts/generate_compliance_rules_200.py` ----- -/

/-- One compliance rule record (base entries and generated output alike). -/
structure BRule where
  id : Str
  title : Str
  category : Str
  description : Str
  keywords : List Str
  severity : Str
  sample_violations : List Str
deriving DecidableEq

/-- Default used only to totalize list indexing; Python indexing is in range
    whenever the base list is nonempty. -/
def dfltRule : BRule := ⟨[], [], [], [], [], [], []⟩

/-- The ten modifier suffixes shared by both generator scripts. -/
def modifiersList : List Str :=
  [[], " - voice channel".data, " - mobile app".data, " - web portal".data,
    " - third-party processor".data, " - escalated case".data,
    " - repeated occurrence".data, " - seasonal spike".data,
    " - high-value customer".data, " - regulatory notice".data]

/-- `synonyms['unauthorized']` in the 200-count variant. -/
def synUnauthorized200 : List Str :=
  ["unauthorised".data, "not recognized".data, "fraudulent".data, "suspicious".data]

/-- `synonyms['payment failed']` (identical in both variants). -/
def synPaymentFailed : List Str :=
  ["payment processing error".data, "payment not processed".data,
    "transaction failed".data]

/-- Python `list(dict.fromkeys(l))`: deduplicate keeping first occurrences,
    with the already-seen keys accumulated. -/
def dedupAux (seen : List Str) : List Str → List Str
  | [] => []
  | x :: t => if x ∈ seen then dedupAux seen t else x :: dedupAux (x :: seen) t

/-- Python `list(dict.fromkeys(l))`. -/
def pyDedup (l : List Str) : List Str := dedupAux [] l

theorem mem_dedupAux : ∀ (l seen : List Str) (a : Str),
    a ∈ dedupAux seen l ↔ a ∈ l ∧ a ∉ seen := by
  intro l
  induction l with
  | nil => intro seen a; simp [dedupAux]
  | cons x t ih =>
    intro seen a
    rw [dedupAux]
    split_ifs with hx
    · rw [ih]
      constructor
      · rintro ⟨h1, h2⟩
        exact ⟨List.mem_cons_of_mem _ h1, h2⟩
      · rintro ⟨h1, h2⟩
        rcases List.mem_cons.mp h1 with rfl | h1
        · exact absurd hx h2
        · exact ⟨h1, h2⟩
    · constructor
      · intro h
        rcases List.mem_cons.mp h with rfl | h1
        · exact ⟨List.mem_cons_self _ _, hx⟩
        · rw [ih] at h1
          obtain ⟨ht, hs⟩ := h1
          exact ⟨List.mem_cons_of_mem _ ht, fun hseen => hs (List.mem_cons_of_mem _ hseen)⟩
      · rintro ⟨h1, h2⟩
        rcases List.mem_cons.mp h1 with rfl | h1
        · exact List.mem_cons_self _ _
        · by_cases hax : a = x
          · subst hax; exact List.mem_cons_self _ _
          · refine List.mem_cons_of_mem _ ?_
            rw [ih]
            refine ⟨h1, fun hc => ?_⟩
            rcases List.mem_cons.mp hc with h | h
            · exact hax h
            · exact h2 h

theorem mem_pyDedup (l : List Str) (a : Str) : a ∈ pyDedup l ↔ a ∈ l := by
  unfold pyDedup
  rw [mem_dedupAux]
  simp

theorem dedupAux_nodup : ∀ (l seen : List Str), (dedupAux seen l).Nodup := by
  intro l
  induction l with
  | nil => intro seen; simp [dedupAux]
  | cons x t ih =>
    intro seen
    rw [dedupAux]
    split_ifs with hx
    · exact ih seen
    · refine List.nodup_cons.mpr ⟨fun hc => ?_, ih (x :: seen)⟩
      rw [mem_dedupAux] at hc
      exact hc.2 (List.mem_cons_self x seen)

theorem pyDedup_nodup (l : List Str) : (pyDedup l).Nodup := dedupAux_nodup l []

/-- Decimal digit characters, as produced by Python `str(n)`. -/
def digitChar : Nat → Char
  | 0 => '0'
  | 1 => '1'
  | 2 => '2'
  | 3 => '3'
  | 4 => '4'
  | 5 => '5'
  | 6 => '6'
  | 7 => '7'
  | 8 => '8'
  | 9 => '9'
  | _ => '*'

/-- Fueled construction of the decimal representation. -/
def natToStrAux : Nat → Nat → Str
  | 0, _ => []
  | fuel + 1, n =>
    if n < 10 then [digitChar n]
    else natToStrAux fuel (n / 10) ++ [digitChar (n % 10)]

/-- Python `str(n)` / f-string interpolation of a natural number. -/
def natToStr (n : Nat) : Str := natToStrAux (n + 1) n

example : natToStr 200 = "200".data := by decide

/-- Value of a digit character. -/
def charVal (c : Char) : Nat := c.toNat - 48

/-- Numeric value of a decimal digit string. -/
def strVal (s : Str) : Nat := s.foldl (fun a c => 10 * a + charVal c) 0

theorem digitChar_ne_dash (n : Nat) : digitChar n ≠ '-' := by
  unfold digitChar
  split <;> decide

theorem charVal_digitChar : ∀ n, n < 10 → charVal (digitChar n) = n := by decide

theorem natToStrAux_mem_ne_dash : ∀ fuel n c, c ∈ natToStrAux fuel n → c ≠ '-' := by
  intro fuel
  induction fuel with
  | zero => intro n c hc; simp [natToStrAux] at hc
  | succ m ih =>
    intro n c hc
    rw [natToStrAux] at hc
    split_ifs at hc with h
    · rw [List.mem_singleton.mp hc]
      exact digitChar_ne_dash n
    · rcases List.mem_append.mp hc with h1 | h1
      · exact ih _ c h1
      · rw [List.mem_singleton.mp h1]
        exact digitChar_ne_dash (n % 10)

theorem strVal_append_digit (xs : Str) (c : Char) :
    strVal (xs ++ [c]) = 10 * strVal xs + charVal c := by
  unfold strVal
  rw [List.foldl_append]
  rfl

theorem natToStrAux_val : ∀ fuel n, n < fuel → strVal (natToStrAux fuel n) = n := by
  intro fuel
  induction fuel with
  | zero => intro n h; exact absurd h (Nat.not_lt_zero n)
  | succ m ih =>
    intro n h
    rw [natToStrAux]
    split_ifs with h10
    · unfold strVal
      simp [List.foldl_cons, charVal_digitChar n h10]
    · have hpos : 0 < n := by omega
      have hdiv : n / 10 < n := Nat.div_lt_self hpos (by norm_num)
      rw [strVal_append_digit, ih (n / 10) (by omega),
        charVal_digitChar (n % 10) (Nat.mod_lt n (by norm_num))]
      exact Nat.div_add_mod n 10

theorem natToStr_val (n : Nat) : strVal (natToStr n) = n :=
  natToStrAux_val (n + 1) n (Nat.lt_succ_self n)

theorem natToStr_inj (a b : Nat) (h : natToStr a = natToStr b) : a = b := by
  have := natToStr_val a
  rw [h, natToStr_val b] at this
  omega

theorem natToStr_mem_ne_dash (n : Nat) (c : Char) (h : c ∈ natToStr n) : c ≠ '-' :=
  natToStrAux_mem_ne_dash (n + 1) n c h

theorem takeWhile_until_dash : ∀ (d r : Str), (∀ c ∈ d, c ≠ '-') →
    (d ++ '-' :: r).takeWhile (fun c => c != '-') = d := by
  intro d
  induction d with
  | nil =>
    intro r _
    simp [List.takeWhile]
  | cons c t ih =>
    intro r h
    have hc : (c != '-') = true := bne_iff_ne.mpr (h c (List.mem_cons_self c t))
    rw [List.cons_append, List.takeWhile_cons, hc]
    simp [ih r (fun x hx => h x (List.mem_cons_of_mem _ hx))]

/-- The decimal suffix after the last dash of a generated rule id. -/
def numTail (s : Str) : Str := (s.reverse.takeWhile (fun c => c != '-')).reverse

theorem numTail_spec (idp num : Str) (h : ∀ c ∈ num, c ≠ '-') :
    numTail (idp ++ '-' :: num) = num := by
  unfold numTail
  rw [List.reverse_append, List.reverse_cons, List.append_assoc, List.singleton_append,
    takeWhile_until_dash _ _ (fun c hc => h c (List.mem_reverse.mp hc)),
    List.reverse_reverse]

/-- Keyword expansion of one keyword in the 200-count generator: the keyword
    itself, then the "unauthorized" synonyms when it contains "unauthor"
    (case-insensitively), then the "payment failed" synonyms when it contains
    "payment" or "transaction". -/
def expandKw (kw : Str) : List Str :=
  kw :: ((if hasSub "unauthor".data (pyLower kw) then synUnauthorized200 else []) ++
    (if hasSub "payment".data (pyLower kw) || hasSub "transaction".data (pyLower kw) then
      synPaymentFailed else []))

/-- The `new_keywords` list built by the inner loop of the 200-count script. -/
def expandKeywords (kws : List Str) : List Str := (kws.map expandKw).flatten

/-- Rule number `i` (0-based) produced by `generate_compliance_rules_200.py`. -/
def genRule200 (base : List BRule) (i : Nat) : BRule :=
  let br := base.getD (i % base.length) dfltRule
  let mod := modifiersList.getD (i % 10) []
  { id := br.id ++ '-' :: natToStr (i + 1)
    title := br.title ++ mod
    category := br.category
    description := pyStrip (br.description ++ mod)
    keywords := pyDedup ((expandKeywords (pyDedup br.keywords)).filter (fun k => !k.isEmpty))
    severity := br.severity
    sample_violations := br.sample_violations }

/-- Output of the 200-count generator (`for i in range(COUNT)`, COUNT = 200). -/
def gen200 (base : List BRule) : List BRule := (List.range 200).map (genRule200 base)

theorem gen200_getD (base : List BRule) (i : Nat) (hi : i < 200) :
    (gen200 base).getD i dfltRule = genRule200 base i := by
  unfold gen200
  rw [List.getD_eq_getElem?_getD, List.getElem?_map, List.getElem?_range hi]
  rfl

theorem genRule200_id (base : List BRule) (i : Nat) :
    (genRule200 base i).id
      = (base.getD (i % base.length) dfltRule).id ++ '-' :: natToStr (i + 1) := rfl

theorem genRule200_keywords (base : List BRule) (i : Nat) :
    (genRule200 base i).keywords
      = pyDedup ((expandKeywords
          (pyDedup (base.getD (i % base.length) dfltRule).keywords)).filter
            (fun k => !k.isEmpty)) := rfl

theorem gen200_ids_nodup (base : List BRule) :
    ((gen200 base).map (fun r => r.id)).Nodup := by
  unfold gen200
  rw [List.map_map]
  refine List.Nodup.map_on ?_ (List.nodup_range 200)
  intro i _ j _ heq
  simp only [Function.comp] at heq
  have hni := numTail_spec (base.getD (i % base.length) dfltRule).id (natToStr (i + 1))
    (fun c hc => natToStr_mem_ne_dash _ c hc)
  have hnj := numTail_spec (base.getD (j % base.length) dfltRule).id (natToStr (j + 1))
    (fun c hc => natToStr_mem_ne_dash _ c hc)
  have heqn : natToStr (i + 1) = natToStr (j + 1) := by
    rw [← hni, ← hnj, ← genRule200_id, ← genRule200_id, heq]
  have := natToStr_inj _ _ heqn
  omega

theorem synUnauthorized200_nonempty : ∀ s ∈ synUnauthorized200, s.isEmpty = false := by decide

/-- C8: the 200-count generator on a base list of 20 rules yields exactly 200
    records; the ids are pairwise distinct and formed by suffixing the
    cyclically selected base id with a dash and the decimal of `i + 1`; every
    rule one of whose deduplicated base keywords contains "unauthor"
    (case-insensitively) carries all four "unauthorized" synonyms in its final
    keyword list; and no final keyword list has duplicates. -/
theorem c8_generator200 (base : List BRule) (h20 : base.length = 20) :
    (gen200 base).length = 200 ∧
    ((gen200 base).map (fun r => r.id)).Nodup ∧
    (∀ i < 200,
        ((gen200 base).getD i dfltRule).id
          = (base.getD (i % 20) dfltRule).id ++ '-' :: natToStr (i + 1)) ∧
    (∀ i < 200,
        (∃ kw ∈ pyDedup (base.getD (i % 20) dfltRule).keywords,
            hasSub "unauthor".data (pyLower kw) = true) →
        ∀ s ∈ synUnauthorized200, s ∈ ((gen200 base).getD i dfltRule).keywords) ∧
    (∀ r ∈ gen200 base, r.keywords.Nodup) := by
  refine ⟨by simp [gen200], gen200_ids_nodup base, ?_, ?_, ?_⟩
  · intro i hi
    rw [gen200_getD base i hi, genRule200_id, h20]
  · intro i hi hex s hs
    obtain ⟨kw, hkw, hun⟩ := hex
    rw [gen200_getD base i hi, genRule200_keywords, h20]
    refine (mem_pyDedup _ s).mpr (List.mem_filter.mpr ⟨?_, ?_⟩)
    · refine List.mem_flatten.mpr ⟨expandKw kw, List.mem_map_of_mem _ hkw, ?_⟩
      unfold expandKw
      rw [if_pos hun]
      exact List.mem_cons_of_mem _ (List.mem_append_left _ hs)
    · simp [synUnauthorized200_nonempty s hs]
  · intro r hr
    obtain ⟨i, _, rfl⟩ := List.mem_map.mp hr
    rw [genRule200_keywords]
    exact pyDedup_nodup _

/-- A concrete base list of 20 rules, one of whose keywords contains
    "unauthorized". -/
def base20 : List BRule :=
  List.replicate 20
    ⟨"R".data, "Unauthorized charge".data, "payments".data, "desc".data,
      ["unauthorized transaction".data, "chargeback".data], "High".data, []⟩

/-- Witness for C8 at a concrete base list of 20 rules. -/
theorem c8_generator200_witness :
    (gen200 base20).length = 200 ∧
    ((gen200 base20).map (fun r => r.id)).Nodup ∧
    ((gen200 base20).getD 0 dfltRule).id = (base20.getD 0 dfltRule).id ++ '-' :: natToStr 1 ∧
    (∀ s ∈ synUnauthorized200, s ∈ ((gen200 base20).getD 0 dfltRule).keywords) := by
  have h := c8_generator200 base20 (by simp [base20])
  refine ⟨h.1, h.2.1, ?_, ?_⟩
  · have h3 := h.2.2.1 0 (by norm_num)
    simpa using h3
  · have h4 := h.2.2.2.1 0 (by norm_num)
      ⟨"unauthorized transaction".data, by decide, by decide⟩
    simpa using h4

/- ----- `scripts/generate_compliance_rules.py` (2000-count variant) ----- -/

/-- `synonyms['unauthorized']` in the 2000-count variant (with its repeated
    "not recognized" entry). -/
def synUnauthorized2000 : List Str :=
  ["unauthorised".data, "not recognized".data, "not recognized".data,
    "fraudulent".data, "suspicious".data]

/-- Python `' '.join(l)`. -/
def pyJoinSpace : List Str → Str
  | [] => []
  | [x] => x
  | x :: y :: t => x ++ ' ' :: pyJoinSpace (y :: t)

/-- Rule number `i` of the 2000-count generator; `none` models the
    IndexError raised by `new_rule['keywords'][0]` when the copied keyword
    list is empty. -/
def genRule2000 (base : List BRule) (i : Nat) : Option BRule :=
  let br := base.getD (i % base.length) dfltRule
  let mod := modifiersList.getD (i % 10) []
  match br.keywords with
  | [] => none
  | k0 :: _ =>
    let kws1 := if hasSub "unauthorized".data k0 then br.keywords ++ synUnauthorized2000
      else br.keywords
    let kws2 := if hasSub "payment failed".data (pyJoinSpace kws1) then
      kws1 ++ synPaymentFailed else kws1
    some { id := br.id ++ '-' :: natToStr (i + 1)
           title := br.title ++ mod
           category := br.category
           description := br.description ++ mod
           keywords := kws2
           severity := br.severity
           sample_violations := br.sample_violations }

/-- The `for i in range(2000)` loop: the first raised error aborts the run
    and nothing accumulated so far survives. -/
def run2000Aux (base : List BRule) : List Nat → Option (List BRule)
  | [] => some []
  | i :: t =>
    match genRule2000 base i with
    | none => none
    | some r =>
      match run2000Aux base t with
      | none => none
      | some rs => some (r :: rs)

/-- Outcome of the whole 2000-count generator run. -/
def run2000 (base : List BRule) : Option (List BRule) := run2000Aux base (List.range 2000)

/-- Writes to the output file of the 2000-count script: once on success,
    never on failure. -/
def run2000Writes (base : List BRule) : List (List BRule) :=
  match run2000 base with
  | some rs => [rs]
  | none => []

theorem genRule2000_eq_none (base : List BRule) (i : Nat) :
    genRule2000 base i = none ↔ (base.getD (i % base.length) dfltRule).keywords = [] := by
  unfold genRule2000
  dsimp only
  cases h : (base.getD (i % base.length) dfltRule).keywords with
  | nil => simp
  | cons k0 kt => simp [h]

theorem run2000Aux_none (base : List BRule) :
    ∀ L : List Nat, (∃ i ∈ L, genRule2000 base i = none) → run2000Aux base L = none := by
  intro L
  induction L with
  | nil => rintro ⟨i, hi, -⟩; cases hi
  | cons j t ih =>
    rintro ⟨i, hi, hnone⟩
    rcases List.mem_cons.mp hi with rfl | hi2
    · simp only [run2000Aux, hnone]
    · cases hg : genRule2000 base j with
      | none => simp only [run2000Aux, hg]
      | some r => simp only [run2000Aux, hg, ih ⟨i, hi2, hnone⟩]

theorem run2000Aux_some (base : List BRule) :
    ∀ L : List Nat, (∀ i ∈ L, genRule2000 base i ≠ none) →
      ∃ rs, run2000Aux base L = some rs := by
  intro L
  induction L with
  | nil => intro _; exact ⟨[], rfl⟩
  | cons j t ih =>
    intro h
    obtain ⟨rs, hrs⟩ := ih (fun i hi => h i (List.mem_cons_of_mem _ hi))
    cases hg : genRule2000 base j with
    | none => exact absurd hg (h j (List.mem_cons_self j t))
    | some r => exact ⟨r :: rs, by simp only [run2000Aux, hg, hrs]⟩

/-- C10: the 2000-count generator indexes the first keyword unconditionally,
    so if any cyclically selected base rule has an empty keyword list the run
    raises and writes nothing; when every base rule has at least one keyword
    the run completes and writes its output once. -/
theorem c10_generator2000_partiality (base : List BRule) (hne : base ≠ []) :
    ((∃ i < 2000, (base.getD (i % base.length) dfltRule).keywords = []) →
      run2000 base = none ∧ run2000Writes base = []) ∧
    ((∀ r ∈ base, r.keywords ≠ []) →
      ∃ rs, run2000 base = some rs ∧ run2000Writes base = [rs]) := by
  constructor
  · rintro ⟨i, hi, hempty⟩
    have hnone : run2000 base = none :=
      run2000Aux_none base _ ⟨i, List.mem_range.mpr hi, (genRule2000_eq_none base i).mpr hempty⟩
    exact ⟨hnone, by rw [run2000Writes, hnone]⟩
  · intro h
    have hall : ∀ i ∈ List.range 2000, genRule2000 base i ≠ none := by
      intro i _
      rw [Ne, genRule2000_eq_none]
      intro hkeq
      have hlen : 0 < base.length := List.length_pos.mpr hne
      have hlt : i % base.length < base.length := Nat.mod_lt i hlen
      have hmem : base.getD (i % base.length) dfltRule ∈ base := by
        rw [List.getD_eq_getElem?_getD, List.getElem?_eq_getElem hlt]
        simp only [Option.getD_some]
        exact List.getElem_mem hlt
      exact h _ hmem hkeq
    obtain ⟨rs, hrs⟩ := run2000Aux_some base _ hall
    refine ⟨rs, hrs, ?_⟩
    rw [run2000Writes]
    rw [show run2000 base = some rs from hrs]

/-- Witness for C10: a one-rule base with an empty keyword list writes
    nothing; a one-rule base with a nonempty keyword list writes once. -/
theorem c10_generator2000_partiality_witness :
    run2000Writes [⟨"R".data, "T".data, "C".data, "D".data, [], "Low".data, []⟩] = [] ∧
    ∃ rs, run2000Writes [⟨"R".data, "T".data, "C".data, "D".data, ["k".data], "Low".data, []⟩]
        = [rs] := by
  constructor
  · exact ((c10_generator2000_partiality
      [⟨"R".data, "T".data, "C".data, "D".data, [], "Low".data, []⟩] (by simp)).1
      ⟨0, by norm_num, by decide⟩).2
  · obtain ⟨rs, -, hw⟩ := (c10_generator2000_partiality
      [⟨"R".data, "T".data, "C".data, "D".data, ["k".data], "Low".data, []⟩] (by simp)).2
      (by decide)
    exact ⟨rs, hw⟩
